import Mathlib

/-!
Shallow embedding of `scheduling_grid.py`: a randomized generator for an
N×N Latin square honouring caller-supplied fixed positions of the textual
form `row,col=value`.

Modelling conventions:
* A grid is a `List (List Nat)`; the value `0` marks an unfilled cell.
* Python's pseudo-random generator `random.Random(seed)` is abstracted as a
  family of streams `prng : Int → Nat → Nat` (seed → draw index → output);
  `rand.choice(seq)` consumes exactly one stream element and picks the
  element at that index modulo the length.  The enumeration order of a
  Python `set` of small naturals (`list(cell_candidates)`) is modelled as
  ascending.
* `random.randint(0, sys.maxsize)` (the fresh seed drawn when none is
  supplied) is abstracted as an explicit parameter `fresh : Int`.
* Python `int(s)` is modelled by `pyInt` (whitespace stripped, optional
  sign, decimal digits; underscore separators are not modelled).
* Python list indexing `xs[i]` with its negative-index wrap-around is
  modelled by `pyIdx`.
* The CLI contract (spec §6) requires `size` and `max_attempts` to be
  positive integers, and `seed` to be an optional integer; they are
  modelled as `Nat`, `Nat` and `Option Int` respectively.
* Python exceptions become an error type `GenError`; `AssertionError`s,
  `ValueError`s and `IndexError`s get distinct constructors.
-/

/-- The distinct failure modes of `generate`, keeping the data each Python
exception message carries.  `parse` is the `ValueError` raised by tuple
unpacking of `str.split` or by `int()`; `outOfRange` is the value-range
`assert`; `indexError` is an out-of-bounds list subscript; `inconsistentRow`
/`inconsistentCol` are the pre-loop seed-consistency `assert`s;
`exhausted` is the `ValueError` raised after the attempt loop (its payload
is the `max_attempts` number interpolated into the message);
`invariantRow`/`invariantCol` are the final-validation `assert`s. -/
inductive GenError where
  | parse (token : String)
  | outOfRange (token : String)
  | indexError
  | inconsistentRow (i : Nat)
  | inconsistentCol (i : Nat)
  | exhausted (n : Nat)
  | invariantRow (i : Nat)
  | invariantCol (i : Nat)
  deriving DecidableEq, Repr

instance {ε α : Type} [DecidableEq ε] [DecidableEq α] : DecidableEq (Except ε α) := fun a b =>
  match a, b with
  | .ok x, .ok y =>
    if h : x = y then .isTrue (by rw [h]) else .isFalse (by intro hc; cases hc; exact h rfl)
  | .error e, .error f =>
    if h : e = f then .isTrue (by rw [h]) else .isFalse (by intro hc; cases hc; exact h rfl)
  | .ok _, .error _ => .isFalse (by intro hc; cases hc)
  | .error _, .ok _ => .isFalse (by intro hc; cases hc)

/-- An N×N grid as a list of rows; `0` is an unfilled cell. -/
abbrev Grid := List (List Nat)

/-- Python `s.split(sep)` for a single-character separator, on the
character list of the string. -/
def splitOnChar (sep : Char) : List Char → List (List Char)
  | [] => [[]]
  | c :: rest =>
    match splitOnChar sep rest with
    | [] => [[]]
    | first :: others =>
      if c = sep then [] :: first :: others else (c :: first) :: others

/-- Digits of a character list read as a natural number (most significant
first), assuming all characters are decimal digits. -/
def digitsToNat : List Nat → Nat :=
  List.foldl (fun acc d => 10 * acc + d) 0

/-- Python `int(s)`: strip surrounding whitespace, allow one optional sign,
then require a nonempty run of decimal digits.  (Python additionally
accepts underscore digit separators, which this model omits.) -/
def pyInt (s : List Char) : Option Int :=
  let t := ((s.dropWhile Char.isWhitespace).reverse.dropWhile Char.isWhitespace).reverse
  match t with
  | '-' :: ds =>
    if ds ≠ [] ∧ ds.all Char.isDigit then
      some (-(digitsToNat (ds.map (fun c => c.toNat - 48)) : Int))
    else none
  | '+' :: ds =>
    if ds ≠ [] ∧ ds.all Char.isDigit then
      some ((digitsToNat (ds.map (fun c => c.toNat - 48)) : Int))
    else none
  | ds =>
    if ds ≠ [] ∧ ds.all Char.isDigit then
      some ((digitsToNat (ds.map (fun c => c.toNat - 48)) : Int))
    else none

/-- Python list subscripting: indices `0 ≤ i < len` are direct, indices
`-len ≤ i < 0` wrap to `len + i`, anything else raises `IndexError`
(signalled here by `none`). -/
def pyIdx (len : Nat) (i : Int) : Option Nat :=
  if 0 ≤ i ∧ i < len then some i.toNat
  else if -(len : Int) ≤ i ∧ i < 0 then some (len + i).toNat
  else none

/-- Parsing and resolution of one position token, in the exact evaluation
order of the Python source: split on `=` (tuple unpacking), split the
row/col part on `,`, `int(value)`, the value-range `assert`, `int(row)`,
subscript the outer list, `int(col)`, subscript the row.  Returns the
resolved 0-based cell `(ri, ci)` and the value. -/
def parsePos (size : Nat) (tok : String) : Except GenError (Nat × Nat × Nat) :=
  match splitOnChar '=' tok.data with
  | [rowcol, valS] =>
    match splitOnChar ',' rowcol with
    | [rowS, colS] =>
      match pyInt valS with
      | none => .error (.parse tok)
      | some v =>
        if 0 < v ∧ v ≤ (size : Int) then
          match pyInt rowS with
          | none => .error (.parse tok)
          | some r =>
            match pyIdx size (r - 1) with
            | none => .error .indexError
            | some ri =>
              match pyInt colS with
              | none => .error (.parse tok)
              | some c =>
                match pyIdx size (c - 1) with
                | none => .error .indexError
                | some ci => .ok (ri, ci, v.toNat)
        else .error (.outOfRange tok)
    | _ => .error (.parse tok)
  | _ => .error (.parse tok)

/-- `grid[ri][ci] = v` on the functional grid. -/
def setCell (g : Grid) (ri ci v : Nat) : Grid :=
  g.set ri ((g.getD ri []).set ci v)

/-- `grid[ri][ci]` on the functional grid (with `0` as the out-of-bounds
default, used only at in-bounds indices). -/
def cellVal (g : Grid) (ri ci : Nat) : Nat :=
  (g.getD ri []).getD ci 0

/-- The grid is an N-row list whose rows all have length N. -/
def GridShape (size : Nat) (g : Grid) : Prop :=
  g.length = size ∧ ∀ row ∈ g, row.length = size

/-- Place one position token into the grid (`grid_initial[int(row) - 1][int(col) - 1] = ival`). -/
def placeOne (size : Nat) (g : Grid) (tok : String) : Except GenError Grid :=
  match parsePos size tok with
  | .error e => .error e
  | .ok (ri, ci, v) => .ok (setCell g ri ci v)

/-- The `for position in positions` placement loop; stops at the first
failing token. -/
def placeAll (size : Nat) (g : Grid) : List String → Except GenError Grid
  | [] => .ok g
  | tok :: rest =>
    match placeOne size g tok with
    | .error e => .error e
    | .ok g' => placeAll size g' rest

/-- Column `c` of the grid, as read by the Python comprehensions
`[row[col_num] for row in grid]`. -/
def colList (g : Grid) (c : Nat) : List Nat :=
  g.map (fun row => row.getD c 0)

/-- The per-line seed-consistency condition of the pre-loop `assert`s:
`len([v for v in line if v != 0]) == len(set(line) - {0})`. -/
def rowConsistent (line : List Nat) : Bool :=
  (line.filter (fun v => v ≠ 0)).length == (line.toFinset \ {0}).card

/-- The two pre-loop validation `assert` loops over rows and then columns;
reports the first inconsistent line. -/
def seedCheck (size : Nat) (g : Grid) : Except GenError Unit :=
  match (List.range g.length).find? (fun i => ! rowConsistent (g.getD i [])) with
  | some i => .error (.inconsistentRow i)
  | none =>
    match (List.range size).find? (fun j => ! rowConsistent (colList g j)) with
    | some j => .error (.inconsistentCol j)
    | none => .ok ()

/-- The abstracted pseudo-random generator: a stream of naturals and a
cursor position.  Built once per invocation from the seed; `choice`
advances the cursor. -/
structure Rng where
  stream : Nat → Nat
  pos : Nat

/-- `rand.choice(l)`: pick the element indexed by the next stream value
(modulo length) and advance the cursor by one. -/
def Rng.choice (r : Rng) (l : List Nat) : Nat × Rng :=
  (l.getD (r.stream r.pos % l.length) 0, ⟨r.stream, r.pos + 1⟩)

/-- The candidate computation of the fill loop:
`set(range(1, size + 1)) - set(row) - {row[col_num] for row in grid}`,
listed in the ascending order used to model Python's set enumeration. -/
def candList (size : Nat) (g : Grid) (ri c : Nat) : List Nat :=
  (List.range' 1 size).filter
    (fun v => ! (g.getD ri []).contains v && ! (colList g c).contains v)

/-- Row-major cell order of the nested `for row in grid: for col_num in
range(size)` loops. -/
def cellsOf (nrows size : Nat) : List (Nat × Nat) :=
  (List.range nrows).flatMap (fun r => (List.range size).map (fun c => (r, c)))

/-- One generation attempt's fill loop over the given cells: skip non-zero
cells, dead-end (`raise ValueError`) on an empty candidate set, otherwise
fill with a random choice.  Always returns the random state reached, since
the generator is shared across attempts. -/
def fillCells (size : Nat) : List (Nat × Nat) → Grid → Rng → Option Grid × Rng
  | [], g, rng => (some g, rng)
  | (r, c) :: rest, g, rng =>
    if (g.getD r []).getD c 0 = 0 then
      let cands := candList size g r c
      if cands.isEmpty then (none, rng)
      else
        let picked := rng.choice cands
        fillCells size rest (setCell g r c picked.1) picked.2
    else fillCells size rest g rng

/-- One attempt: clone the initial grid (implicit in the functional model)
and run the fill loop over all cells in row-major order. -/
def runAttempt (size : Nat) (g0 : Grid) (rng : Rng) : Option Grid × Rng :=
  fillCells size (cellsOf g0.length size) g0 rng

/-- The `while attempts < max_attempts` retry loop, with `fuel` the number
of iterations still allowed and `a` the value of the `attempts` counter so
far.  Returns the outcome (on success, paired with the 1-based attempt
index), the final `attempts` value, and the final random state. -/
def genLoopAux (size : Nat) (g0 : Grid) : Nat → Nat → Rng → Option (Grid × Nat) × Nat × Rng
  | 0, a, rng => (none, a, rng)
  | fuel + 1, a, rng =>
    match runAttempt size g0 rng with
    | (some g, rng') => (some (g, a + 1), a + 1, rng')
    | (none, rng') => genLoopAux size g0 fuel (a + 1) rng'

/-- The per-line final-validation condition:
`set(line) == set(range(1, size + 1))`. -/
def finalRowOk (size : Nat) (line : List Nat) : Bool :=
  line.toFinset == Finset.Icc 1 size

/-- The two final validation `assert` loops over rows and then columns of
the completed grid. -/
def finalCheck (size : Nat) (g : Grid) : Except GenError Unit :=
  match (List.range g.length).find? (fun i => ! finalRowOk size (g.getD i [])) with
  | some i => .error (.invariantRow i)
  | none =>
    match (List.range size).find? (fun j => ! finalRowOk size (colList g j)) with
    | some j => .error (.invariantCol j)
    | none => .ok ()

/-- Everything after seed validation: run the retry loop, then the
`if not grid_final` falsiness test (which treats both `None` and an empty
list as failure), then the final validation. -/
def genCore (size : Nat) (ginit : Grid) (maxA : Nat) (rng : Rng) : Except GenError (Grid × Nat) :=
  match genLoopAux size ginit maxA 0 rng with
  | (some (g, a), _, _) =>
    if g.isEmpty then .error (.exhausted maxA)
    else
      match finalCheck size g with
      | .error e => .error e
      | .ok _ => .ok (g, a)
  | (none, _, _) => .error (.exhausted maxA)

/-- The all-zero starting grid
`[[0 for _ in range(size)] for _ in range(size)]`. -/
def zeroGrid (size : Nat) : Grid :=
  List.replicate size (List.replicate size 0)

/-- `seed_internal`: the Python truthiness test `if seed:` keeps a supplied
seed only when it is a non-zero integer; otherwise the fresh random seed is
used. -/
def seedInternal (fresh : Int) : Option Int → Int
  | some s => if s = 0 then fresh else s
  | none => fresh

/-- The whole `generate` command: place the fixed positions into the zero
grid, validate seed consistency, build the random generator from the seed
once, and run the attempt loop followed by the final validation.  `prng` is
the abstract family of random streams and `fresh` the entropy used when no
(truthy) seed is supplied. -/
def generate (prng : Int → Nat → Nat) (fresh : Int) (size : Nat)
    (seed : Option Int) (maxA : Nat) (positions : List String) :
    Except GenError (Grid × Nat) :=
  match placeAll size (zeroGrid size) positions with
  | .error e => .error e
  | .ok ginit =>
    match seedCheck size ginit with
    | .error e => .error e
    | .ok _ => genCore size ginit maxA ⟨prng (seedInternal fresh seed), 0⟩

/-- Modelled from the spec (§4.2, step 4): the candidate set stated as
"{1..N} minus the non-zero values present in the cell's row minus the
non-zero values present in the cell's column, computed against the live
working grid".  Used only to compare against the source's candidate
computation `candList`. -/
def specCandidates (size : Nat) (g : Grid) (ri c : Nat) : Finset Nat :=
  (Finset.Icc 1 size \ ((g.getD ri []).filter (fun v => v ≠ 0)).toFinset) \
    ((colList g c).filter (fun v => v ≠ 0)).toFinset

/-- Modelled from the spec (§4.2, steps 2-6): the fill loop restated with
the spec's candidate set; skip non-zero cells, abandon the attempt when the
candidate set is empty, otherwise choose from the shared random source.
Used only to compare against `fillCells`. -/
def fillCellsSpec (size : Nat) : List (Nat × Nat) → Grid → Rng → Option Grid × Rng
  | [], g, rng => (some g, rng)
  | (r, c) :: rest, g, rng =>
    if (g.getD r []).getD c 0 = 0 then
      let cands := specCandidates size g r c
      if cands = ∅ then (none, rng)
      else
        let picked := rng.choice (cands.sort (· ≤ ·))
        fillCellsSpec size rest (setCell g r c picked.1) picked.2
    else fillCellsSpec size rest g rng

/-- The spec-side attempt: `fillCellsSpec` over the cells in row-major
order. -/
def runAttemptSpec (size : Nat) (g0 : Grid) (rng : Rng) : Option Grid × Rng :=
  fillCellsSpec size (cellsOf g0.length size) g0 rng

/-- The random state with which attempt `i + 1` begins (attempt numbering
here is 0-based): the state left behind by the previous attempts, since the
generator is never re-seeded. -/
def rngAt (size : Nat) (g0 : Grid) (rng : Rng) : Nat → Rng
  | 0 => rng
  | i + 1 => (runAttempt size g0 (rngAt size g0 rng i)).2

/-- The outcome of the `i`-th attempt (0-based) when the loop starts from
random state `rng`. -/
def attemptGrid (size : Nat) (g0 : Grid) (rng : Rng) (i : Nat) : Option Grid :=
  (runAttempt size g0 (rngAt size g0 rng i)).1

/-! ### Basic facts about the Python indexing and grid helpers -/

lemma pyIdx_lt {len : Nat} {i : Int} {n : Nat} (h : pyIdx len i = some n) : n < len := by
  unfold pyIdx at h
  split_ifs at h with h1 h2 <;> simp_all <;> omega

lemma pyIdx_of_nonneg {len : Nat} {i : Int} (h0 : 0 ≤ i) (h1 : i < len) :
    pyIdx len i = some i.toNat := by
  unfold pyIdx
  rw [if_pos ⟨h0, h1⟩]

lemma pyIdx_of_neg {len : Nat} {i : Int} (h0 : -(len : Int) ≤ i) (h1 : i < 0) :
    pyIdx len i = some (len + i).toNat := by
  unfold pyIdx
  rw [if_neg (by omega), if_pos ⟨h0, h1⟩]

lemma pyIdx_none {len : Nat} {i : Int} (h : i < -(len : Int) ∨ (len : Int) ≤ i) :
    pyIdx len i = none := by
  unfold pyIdx
  rw [if_neg (by omega), if_neg (by omega)]

lemma zeroGrid_shape (size : Nat) : GridShape size (zeroGrid size) := by
  refine ⟨List.length_replicate .., fun row hrow => ?_⟩
  rw [List.eq_of_mem_replicate hrow]
  exact List.length_replicate ..

lemma setCell_shape {size : Nat} {g : Grid} (h : GridShape size g) (ri ci v : Nat) :
    GridShape size (setCell g ri ci v) := by
  by_cases hlt : ri < g.length
  · constructor
    · rw [setCell, List.length_set]; exact h.1
    · intro row hrow
      rcases List.mem_or_eq_of_mem_set hrow with hmem | heq
      · exact h.2 row hmem
      · subst heq
        rw [List.length_set]
        exact h.2 _ (by rw [List.getD_eq_getElem _ _ hlt]; exact List.getElem_mem _)
  · rw [setCell, List.set_eq_of_length_le (by omega)]
    exact h

lemma placeOne_shape {size : Nat} {g g' : Grid} {tok : String}
    (h : placeOne size g tok = .ok g') (hs : GridShape size g) : GridShape size g' := by
  unfold placeOne at h
  cases hp : parsePos size tok with
  | error e => rw [hp] at h; cases h
  | ok p =>
    rw [hp] at h
    cases h
    exact setCell_shape hs ..

lemma placeAll_shape {size : Nat} :
    ∀ {ps : List String} {g g' : Grid}, placeAll size g ps = .ok g' →
      GridShape size g → GridShape size g'
  | [], g, g', h, hs => by
      unfold placeAll at h
      cases h
      exact hs
  | tok :: rest, g, g', h, hs => by
      unfold placeAll at h
      cases h1 : placeOne size g tok with
      | error e => rw [h1] at h; cases h
      | ok gmid =>
        rw [h1] at h
        exact placeAll_shape h (placeOne_shape h1 hs)

lemma fillCells_shape {size : Nat} :
    ∀ {cells : List (Nat × Nat)} {g g' : Grid} {rng rng' : Rng},
      fillCells size cells g rng = (some g', rng') → GridShape size g → GridShape size g'
  | [], g, g', rng, rng', h, hs => by
      unfold fillCells at h
      cases h
      exact hs
  | (r, c) :: rest, g, g', rng, rng', h, hs => by
      unfold fillCells at h
      by_cases h0 : (g.getD r []).getD c 0 = 0
      · rw [if_pos h0] at h
        by_cases hemp : (candList size g r c).isEmpty
        · rw [if_pos hemp] at h; cases h
        · rw [if_neg hemp] at h
          exact fillCells_shape h (setCell_shape hs ..)
      · rw [if_neg h0] at h
        exact fillCells_shape h hs

lemma runAttempt_shape {size : Nat} {g0 g : Grid} {rng rng' : Rng}
    (h : runAttempt size g0 rng = (some g, rng')) (hs : GridShape size g0) :
    GridShape size g :=
  fillCells_shape h hs

lemma nodup_of_toFinset_Icc {l : List Nat} {size : Nat}
    (hl : l.length = size) (ht : l.toFinset = Finset.Icc 1 size) : l.Nodup := by
  have h1 : l.toFinset.card = size := by rw [ht, Nat.card_Icc]; omega
  have h2 : l.dedup.length = l.length := by
    rw [← List.card_toFinset, h1, hl]
  rw [← List.dedup_eq_self]
  exact List.Sublist.eq_of_length (List.dedup_sublist l) h2

/-! ### Extraction lemmas for the validators and the retry loop -/

lemma finalRowOk_iff {size : Nat} {l : List Nat} :
    finalRowOk size l = true ↔ l.toFinset = Finset.Icc 1 size := by
  unfold finalRowOk
  exact beq_iff_eq

lemma finalCheck_ok {size : Nat} {g : Grid} (h : finalCheck size g = .ok ()) :
    (∀ i < g.length, finalRowOk size (g.getD i []) = true) ∧
    (∀ j < size, finalRowOk size (colList g j) = true) := by
  unfold finalCheck at h
  cases h1 : (List.range g.length).find? (fun i => ! finalRowOk size (g.getD i [])) with
  | some i => rw [h1] at h; cases h
  | none =>
    rw [h1] at h
    cases h2 : (List.range size).find? (fun j => ! finalRowOk size (colList g j)) with
    | some j => rw [h2] at h; cases h
    | none =>
      rw [List.find?_eq_none] at h1 h2
      constructor
      · intro i hi
        have := h1 i (List.mem_range.mpr hi)
        simpa using this
      · intro j hj
        have := h2 j (List.mem_range.mpr hj)
        simpa using this

lemma rngAt_shift (size : Nat) (g0 : Grid) (rng : Rng) :
    ∀ i, rngAt size g0 ((runAttempt size g0 rng).2) i = rngAt size g0 rng (i + 1) := by
  intro i
  induction i with
  | zero => rfl
  | succ n ih => simp only [rngAt, ih]

lemma attemptGrid_shift (size : Nat) (g0 : Grid) (rng : Rng) (i : Nat) :
    attemptGrid size g0 ((runAttempt size g0 rng).2) i = attemptGrid size g0 rng (i + 1) := by
  unfold attemptGrid
  rw [rngAt_shift]

lemma genLoopAux_none_char (size : Nat) (g0 : Grid) :
    ∀ fuel a rng, (genLoopAux size g0 fuel a rng).1 = none →
      (genLoopAux size g0 fuel a rng).2.1 = a + fuel ∧
      ∀ i < fuel, attemptGrid size g0 rng i = none := by
  intro fuel
  induction fuel with
  | zero =>
    intro a rng _
    exact ⟨rfl, fun i hi => absurd hi (Nat.not_lt_zero i)⟩
  | succ n ih =>
    intro a rng h
    cases hr : runAttempt size g0 rng with
    | mk res rng' =>
      cases res with
      | some gg => simp [genLoopAux, hr] at h
      | none =>
        have hrec : genLoopAux size g0 (n + 1) a rng = genLoopAux size g0 n (a + 1) rng' := by
          simp [genLoopAux, hr]
        rw [hrec] at h ⊢
        obtain ⟨hc, hall⟩ := ih (a + 1) rng' h
        refine ⟨by omega, ?_⟩
        intro i hi
        cases i with
        | zero =>
          unfold attemptGrid rngAt
          rw [hr]
        | succ m =>
          have hm := hall m (by omega)
          have h2 : rng' = (runAttempt size g0 rng).2 := by rw [hr]
          rw [h2, attemptGrid_shift] at hm
          exact hm

lemma genLoopAux_all_fail (size : Nat) (g0 : Grid) :
    ∀ fuel a rng, (∀ i < fuel, attemptGrid size g0 rng i = none) →
      genLoopAux size g0 fuel a rng = (none, a + fuel, rngAt size g0 rng fuel) := by
  intro fuel
  induction fuel with
  | zero => intro a rng _; rfl
  | succ n ih =>
    intro a rng hall
    have h0 := hall 0 (by omega)
    unfold attemptGrid rngAt at h0
    cases hr : runAttempt size g0 rng with
    | mk res rng' =>
      rw [hr] at h0
      cases res with
      | some gg => cases h0
      | none =>
        have hrec : genLoopAux size g0 (n + 1) a rng = genLoopAux size g0 n (a + 1) rng' := by
          simp [genLoopAux, hr]
        have hshift : ∀ i < n, attemptGrid size g0 rng' i = none := by
          intro i hi
          have h2 : rng' = (runAttempt size g0 rng).2 := by rw [hr]
          rw [h2, attemptGrid_shift]
          exact hall (i + 1) (by omega)
        rw [hrec, ih (a + 1) rng' hshift]
        have h2 : rng' = (runAttempt size g0 rng).2 := by rw [hr]
        rw [h2, rngAt_shift]
        have h3 : a + 1 + n = a + (n + 1) := by omega
        rw [h3]

lemma genLoopAux_some_char (size : Nat) (g0 : Grid) :
    ∀ fuel a rng g k, (genLoopAux size g0 fuel a rng).1 = some (g, k) →
      a < k ∧ k ≤ a + fuel ∧ attemptGrid size g0 rng (k - a - 1) = some g ∧
      ∀ i < k - a - 1, attemptGrid size g0 rng i = none := by
  intro fuel
  induction fuel with
  | zero => intro a rng g k h; simp [genLoopAux] at h
  | succ n ih =>
    intro a rng g k h
    cases hr : runAttempt size g0 rng with
    | mk res rng' =>
      cases res with
      | some gg =>
        have heq : genLoopAux size g0 (n + 1) a rng = (some (gg, a + 1), a + 1, rng') := by
          simp [genLoopAux, hr]
        rw [heq] at h
        simp only at h
        obtain ⟨hg, hk⟩ : gg = g ∧ a + 1 = k := by
          cases h; exact ⟨rfl, rfl⟩
        subst hg; subst hk
        refine ⟨by omega, by omega, ?_, ?_⟩
        · have : a + 1 - a - 1 = 0 := by omega
          rw [this]
          unfold attemptGrid rngAt
          rw [hr]
        · intro i hi
          omega
      | none =>
        have hrec : genLoopAux size g0 (n + 1) a rng = genLoopAux size g0 n (a + 1) rng' := by
          simp [genLoopAux, hr]
        rw [hrec] at h
        obtain ⟨h1, h2, h3, h4⟩ := ih (a + 1) rng' g k h
        have hs : rng' = (runAttempt size g0 rng).2 := by rw [hr]
        refine ⟨by omega, by omega, ?_, ?_⟩
        · have heq : k - a - 1 = (k - (a + 1) - 1) + 1 := by omega
          rw [heq, ← attemptGrid_shift, ← hs]
          exact h3
        · intro i hi
          cases i with
          | zero =>
            unfold attemptGrid rngAt
            rw [hr]
          | succ m =>
            rw [← attemptGrid_shift, ← hs]
            exact h4 m (by omega)

lemma genCore_ok {size maxA : Nat} {ginit : Grid} {rng : Rng} {g : Grid} {a : Nat}
    (h : genCore size ginit maxA rng = .ok (g, a)) :
    (genLoopAux size ginit maxA 0 rng).1 = some (g, a) ∧ g.isEmpty = false ∧
    finalCheck size g = .ok () := by
  unfold genCore at h
  rcases hl : genLoopAux size ginit maxA 0 rng with ⟨res, af, rngf⟩
  rw [hl] at h
  cases res with
  | none => cases h
  | some p =>
    rcases p with ⟨g0, a0⟩
    dsimp only at h
    by_cases hemp : g0.isEmpty
    · rw [if_pos hemp] at h; cases h
    · rw [if_neg hemp] at h
      cases hfc : finalCheck size g0 with
      | error e => rw [hfc] at h; cases h
      | ok u =>
        cases u
        rw [hfc] at h
        cases h
        exact ⟨rfl, Bool.not_eq_true _ |>.mp hemp, hfc⟩

lemma generate_ok_parts {prng : Int → Nat → Nat} {fresh : Int} {size : Nat}
    {seed : Option Int} {maxA : Nat} {ps : List String} {g : Grid} {a : Nat}
    (h : generate prng fresh size seed maxA ps = .ok (g, a)) :
    ∃ ginit, placeAll size (zeroGrid size) ps = .ok ginit ∧
      seedCheck size ginit = .ok () ∧
      genCore size ginit maxA ⟨prng (seedInternal fresh seed), 0⟩ = .ok (g, a) := by
  unfold generate at h
  cases hp : placeAll size (zeroGrid size) ps with
  | error e => rw [hp] at h; cases h
  | ok ginit =>
    rw [hp] at h
    dsimp only at h
    cases hs : seedCheck size ginit with
    | error e => rw [hs] at h; cases h
    | ok u =>
      cases u
      rw [hs] at h
      exact ⟨ginit, rfl, hs, h⟩

/-! ### Claim C1 -/

/-- C1: every run of `generate` that returns a completed grid (rather than
an error) returns an N×N grid whose every row and every column is a
permutation of {1..N} — no zeros, no duplicates, no out-of-range values —
and the final grid validator accepts it. -/
theorem success_grid_is_latin (prng : Int → Nat → Nat) (fresh : Int) (size : Nat)
    (seed : Option Int) (maxA : Nat) (ps : List String) (g : Grid) (a : Nat)
    (hok : generate prng fresh size seed maxA ps = .ok (g, a)) :
    g.length = size ∧
    (∀ row ∈ g, row.length = size ∧ row.toFinset = Finset.Icc 1 size ∧ row.Nodup) ∧
    (∀ j < size, (colList g j).length = size ∧
      (colList g j).toFinset = Finset.Icc 1 size ∧ (colList g j).Nodup) ∧
    finalCheck size g = .ok () := by
  obtain ⟨ginit, hplace, hseed, hcore⟩ := generate_ok_parts hok
  obtain ⟨hloop, hemp, hfc⟩ := genCore_ok hcore
  have hginit : GridShape size ginit := placeAll_shape hplace (zeroGrid_shape size)
  obtain ⟨-, -, hatt, -⟩ := genLoopAux_some_char size ginit maxA 0 _ g a hloop
  have hshape : GridShape size g := by
    unfold attemptGrid at hatt
    rcases hr : runAttempt size ginit (rngAt size ginit ⟨prng (seedInternal fresh seed), 0⟩ (a - 0 - 1)) with ⟨res, rng'⟩
    rw [hr] at hatt
    cases res with
    | none => cases hatt
    | some gg =>
      cases hatt
      exact runAttempt_shape hr hginit
  obtain ⟨hrows, hcols⟩ := finalCheck_ok hfc
  refine ⟨hshape.1, ?_, ?_, hfc⟩
  · intro row hrow
    obtain ⟨i, hi, hget⟩ := List.mem_iff_getElem.mp hrow
    have hok' := hrows i hi
    rw [List.getD_eq_getElem _ _ hi, hget] at hok'
    have hlen : row.length = size := hshape.2 row hrow
    have hfin := finalRowOk_iff.mp hok'
    exact ⟨hlen, hfin, nodup_of_toFinset_Icc hlen hfin⟩
  · intro j hj
    have hok' := hcols j hj
    have hlen : (colList g j).length = size := by
      rw [colList, List.length_map, hshape.1]
    have hfin := finalRowOk_iff.mp hok'
    exact ⟨hlen, hfin, nodup_of_toFinset_Icc hlen hfin⟩

/-- Witness for C1 at a concrete successful run. -/
theorem success_grid_is_latin_witness :
    generate (fun _ _ => 0) 7 2 (some 1) 3 [] = .ok ([[1, 2], [2, 1]], 1) ∧
    (([[1, 2], [2, 1]] : Grid).length = 2 ∧
     (∀ row ∈ ([[1, 2], [2, 1]] : Grid), row.length = 2 ∧
        row.toFinset = Finset.Icc 1 2 ∧ row.Nodup) ∧
     (∀ j < 2, (colList [[1, 2], [2, 1]] j).length = 2 ∧
        (colList [[1, 2], [2, 1]] j).toFinset = Finset.Icc 1 2 ∧
        (colList [[1, 2], [2, 1]] j).Nodup) ∧
     finalCheck 2 [[1, 2], [2, 1]] = .ok ()) :=
  have h : generate (fun _ _ => 0) 7 2 (some 1) 3 [] = .ok ([[1, 2], [2, 1]], 1) := by
    decide
  ⟨h, success_grid_is_latin _ _ _ _ _ _ _ _ h⟩

/-! ### Claim C10 -/

/-- C10: the Python truthiness test `if seed:` discards an explicitly
supplied seed of `0` (behaving exactly as if no seed had been supplied, so
the fresh random seed is substituted), while any non-zero seed is actually
used and makes the fresh entropy irrelevant. -/
theorem falsy_seed_discarded (prng : Int → Nat → Nat) (fresh fresh' : Int)
    (size maxA : Nat) (ps : List String) (s : Int) :
    generate prng fresh size (some 0) maxA ps = generate prng fresh size none maxA ps ∧
    (s ≠ 0 →
      generate prng fresh size (some s) maxA ps = generate prng fresh' size (some s) maxA ps) := by
  constructor
  · have h : seedInternal fresh (some 0) = seedInternal fresh none := by
      simp [seedInternal]
    unfold generate
    rw [h]
  · intro hs
    have h : seedInternal fresh (some s) = seedInternal fresh' (some s) := by
      simp [seedInternal, hs]
    unfold generate
    rw [h]

/-- Witness for C10 at concrete inputs. -/
theorem falsy_seed_discarded_witness :
    (generate (fun _ _ => 0) 7 2 (some 0) 3 [] = generate (fun _ _ => 0) 7 2 none 3 []) ∧
    (generate (fun _ _ => 0) 7 2 (some 5) 3 [] = generate (fun _ _ => 0) 9 2 (some 5) 3 []) :=
  ⟨(falsy_seed_discarded (fun _ _ => 0) 7 9 2 3 [] 5).1,
   (falsy_seed_discarded (fun _ _ => 0) 7 9 2 3 [] 5).2 (by decide)⟩

/-! ### Claim C5 -/

lemma fillCells_stream_pos (size : Nat) :
    ∀ (cells : List (Nat × Nat)) (g : Grid) (rng : Rng),
      ((fillCells size cells g rng).2).stream = rng.stream ∧
      rng.pos ≤ ((fillCells size cells g rng).2).pos := by
  intro cells
  induction cells with
  | nil => intro g rng; exact ⟨rfl, le_refl _⟩
  | cons cell rest ih =>
    intro g rng
    rcases cell with ⟨r, c⟩
    simp only [fillCells]
    by_cases h0 : (g.getD r []).getD c 0 = 0
    · rw [if_pos h0]
      by_cases hemp : (candList size g r c).isEmpty
      · rw [if_pos hemp]
        exact ⟨rfl, le_refl _⟩
      · rw [if_neg hemp]
        obtain ⟨h1, h2⟩ := ih (setCell g r c ((rng.choice (candList size g r c)).1))
          ((rng.choice (candList size g r c)).2)
        refine ⟨h1, ?_⟩
        calc rng.pos ≤ rng.pos + 1 := by omega
          _ ≤ _ := h2
    · rw [if_neg h0]
      exact ih g rng

lemma genLoopAux_stream (size : Nat) (g0 : Grid) :
    ∀ fuel a rng, ((genLoopAux size g0 fuel a rng).2.2).stream = rng.stream := by
  intro fuel
  induction fuel with
  | zero => intro a rng; rfl
  | succ n ih =>
    intro a rng
    cases hr : runAttempt size g0 rng with
    | mk res rng' =>
      have hstream : rng'.stream = rng.stream := by
        have := (fillCells_stream_pos size (cellsOf g0.length size) g0 rng).1
        unfold runAttempt at hr
        rw [hr] at this
        exact this
      cases res with
      | some gg => simp only [genLoopAux, hr]; exact hstream
      | none =>
        have hrec : genLoopAux size g0 (n + 1) a rng = genLoopAux size g0 n (a + 1) rng' := by
          simp [genLoopAux, hr]
        rw [hrec, ih (a + 1) rng']
        exact hstream

/-- C5 amended: determinism and single seeding, for *non-zero* explicit
seeds.  For a fixed explicitly supplied non-zero seed, the run is
independent of the fresh entropy, so repeated invocations with the same
parameters give identical results; the retry loop never replaces the random
stream (it is seeded once, never re-seeded between attempts); the random
state entering attempt `i + 1` is exactly the state left by attempt `i`;
and an attempt only ever advances the stream cursor.  (A supplied seed of
`0` is excluded: the `if seed:` truthiness test discards it, so
reproducibility from the supplied seed fails in that case.) -/
theorem fixed_seed_deterministic_no_reseed (prng : Int → Nat → Nat)
    (size maxA : Nat) (ps : List String) (s : Int) (fresh1 fresh2 : Int) :
    (s ≠ 0 →
      generate prng fresh1 size (some s) maxA ps = generate prng fresh2 size (some s) maxA ps) ∧
    (∀ (g0 : Grid) (fuel a : Nat) (rng : Rng),
      ((genLoopAux size g0 fuel a rng).2.2).stream = rng.stream) ∧
    (∀ (g0 : Grid) (rng : Rng) (i : Nat),
      rngAt size g0 rng (i + 1) = (runAttempt size g0 (rngAt size g0 rng i)).2) ∧
    (∀ (g0 : Grid) (rng : Rng), rng.pos ≤ ((runAttempt size g0 rng).2).pos) := by
  refine ⟨?_, ?_, ?_, ?_⟩
  · intro hs
    have h : seedInternal fresh1 (some s) = seedInternal fresh2 (some s) := by
      simp [seedInternal, hs]
    unfold generate
    rw [h]
  · intro g0 fuel a rng
    exact genLoopAux_stream size g0 fuel a rng
  · intro g0 rng i
    rfl
  · intro g0 rng
    exact (fillCells_stream_pos size (cellsOf g0.length size) g0 rng).2

/-- Witness for C5 at concrete inputs. -/
theorem fixed_seed_deterministic_no_reseed_witness :
    (generate (fun _ _ => 0) 7 2 (some 5) 3 [] = generate (fun _ _ => 0) 9 2 (some 5) 3 []) ∧
    ((genLoopAux 2 [[0, 0], [0, 0]] 3 0 ⟨fun _ => 0, 0⟩).2.2).stream = (⟨fun _ => 0, 0⟩ : Rng).stream ∧
    rngAt 2 [[0, 0], [0, 0]] ⟨fun _ => 0, 0⟩ 1 =
      (runAttempt 2 [[0, 0], [0, 0]] (rngAt 2 [[0, 0], [0, 0]] ⟨fun _ => 0, 0⟩ 0)).2 ∧
    (⟨fun _ => 0, 0⟩ : Rng).pos ≤ ((runAttempt 2 [[0, 0], [0, 0]] ⟨fun _ => 0, 0⟩).2).pos :=
  ⟨(fixed_seed_deterministic_no_reseed (fun _ _ => 0) 2 3 [] 5 7 9).1 (by decide),
   (fixed_seed_deterministic_no_reseed (fun _ _ => 0) 2 3 [] 5 7 9).2.1 [[0, 0], [0, 0]] 3 0 _,
   (fixed_seed_deterministic_no_reseed (fun _ _ => 0) 2 3 [] 5 7 9).2.2.1 [[0, 0], [0, 0]] _ 0,
   (fixed_seed_deterministic_no_reseed (fun _ _ => 0) 2 3 [] 5 7 9).2.2.2 [[0, 0], [0, 0]] _⟩

/-- C5 counterexample: an explicitly supplied seed of `0` does not make two
invocations agree: the `if seed:` truthiness test discards it, so the
substituted fresh entropy — which differs between the two invocations —
determines the output, and the two runs return different grids. -/
theorem seed_zero_not_reproducible :
    generate (fun s _ => if s = 7 then 0 else 1) 7 2 (some 0) 3 [] ≠
      generate (fun s _ => if s = 7 then 0 else 1) 9 2 (some 0) 3 [] := by
  decide

/-! ### Claim C4 -/

lemma filter_toFinset_sdiff (l : List Nat) :
    l.toFinset \ {0} = (l.filter (fun v => v ≠ 0)).toFinset := by
  ext x
  simp only [Finset.mem_sdiff, List.mem_toFinset, Finset.mem_singleton, List.mem_filter,
    decide_eq_true_eq]

lemma rowConsistent_iff (l : List Nat) :
    rowConsistent l = true ↔ (l.filter (fun v => v ≠ 0)).Nodup := by
  unfold rowConsistent
  rw [beq_iff_eq, filter_toFinset_sdiff, List.card_toFinset]
  constructor
  · intro h
    rw [← List.dedup_eq_self]
    exact List.Sublist.eq_of_length (List.dedup_sublist _) h.symm
  · intro h
    rw [List.dedup_eq_self.mpr h]

lemma seedCheck_fails {size : Nat} {g : Grid} (hshape : GridShape size g)
    (hbad : ∃ i < size, ¬ ((g.getD i []).filter (fun v => v ≠ 0)).Nodup ∨
      ¬ ((colList g i).filter (fun v => v ≠ 0)).Nodup) :
    ∃ e, seedCheck size g = .error e ∧
      ∃ j, e = .inconsistentRow j ∨ e = .inconsistentCol j := by
  unfold seedCheck
  cases h1 : (List.range g.length).find? (fun i => ! rowConsistent (g.getD i [])) with
  | some i => exact ⟨_, rfl, i, Or.inl rfl⟩
  | none =>
    cases h2 : (List.range size).find? (fun j => ! rowConsistent (colList g j)) with
    | some j => exact ⟨_, rfl, j, Or.inr rfl⟩
    | none =>
      exfalso
      rw [List.find?_eq_none] at h1 h2
      obtain ⟨i, hi, hcase⟩ := hbad
      cases hcase with
      | inl hrow =>
        have hmem := h1 i (List.mem_range.mpr (by rw [hshape.1]; exact hi))
        have hmem2 : rowConsistent (g.getD i []) = true := by
          cases hb : rowConsistent (g.getD i []) with
          | true => rfl
          | false => exact absurd (by rw [hb]; rfl) hmem
        exact hrow ((rowConsistent_iff _).mp hmem2)
      | inr hcol =>
        have hmem := h2 i (List.mem_range.mpr hi)
        have hmem2 : rowConsistent (colList g i) = true := by
          cases hb : rowConsistent (colList g i) with
          | true => rfl
          | false => exact absurd (by rw [hb]; rfl) hmem
        exact hcol ((rowConsistent_iff _).mp hmem2)

/-- C4: if, after the fixed positions have been merged in, some row or
column of the initial grid repeats a non-zero value, then the run fails
with one of the two seed-consistency errors, and it does so before any
generation attempt: the outcome is the same whatever random streams,
entropy, seed or attempt budget are supplied. -/
theorem inconsistent_seed_rejected (prng : Int → Nat → Nat) (fresh : Int)
    (size : Nat) (seed : Option Int) (maxA : Nat) (ps : List String) (ginit : Grid)
    (hplace : placeAll size (zeroGrid size) ps = .ok ginit)
    (hbad : ∃ i < size, ¬ ((ginit.getD i []).filter (fun v => v ≠ 0)).Nodup ∨
      ¬ ((colList ginit i).filter (fun v => v ≠ 0)).Nodup) :
    (∃ j, generate prng fresh size seed maxA ps = .error (.inconsistentRow j) ∨
          generate prng fresh size seed maxA ps = .error (.inconsistentCol j)) ∧
    ∀ (prng' : Int → Nat → Nat) (fresh' : Int) (seed' : Option Int) (maxA' : Nat),
      generate prng' fresh' size seed' maxA' ps = generate prng fresh size seed maxA ps := by
  have hsh := placeAll_shape hplace (zeroGrid_shape size)
  obtain ⟨e, he, j, hj⟩ := seedCheck_fails hsh hbad
  have hgen : ∀ (pr : Int → Nat → Nat) (fr : Int) (sd : Option Int) (mA : Nat),
      generate pr fr size sd mA ps = .error e := by
    intro pr fr sd mA
    unfold generate
    rw [hplace]
    dsimp only
    rw [he]
  constructor
  · refine ⟨j, ?_⟩
    cases hj with
    | inl h => subst h; exact Or.inl (hgen prng fresh seed maxA)
    | inr h => subst h; exact Or.inr (hgen prng fresh seed maxA)
  · intro prng' fresh' seed' maxA'
    rw [hgen prng' fresh' seed' maxA', hgen prng fresh seed maxA]

/-- Witness for C4: the spec's own example — N = 4 with positions
`(1,1)=2` and `(1,3)=2`. -/
theorem inconsistent_seed_rejected_witness :
    (∃ j, generate (fun _ _ => 0) 7 4 (some 1) 10 ["1,1=2", "1,3=2"] = .error (.inconsistentRow j) ∨
          generate (fun _ _ => 0) 7 4 (some 1) 10 ["1,1=2", "1,3=2"] = .error (.inconsistentCol j)) ∧
    generate (fun _ _ => 1) 9 4 none 3 ["1,1=2", "1,3=2"] =
      generate (fun _ _ => 0) 7 4 (some 1) 10 ["1,1=2", "1,3=2"] :=
  have h := inconsistent_seed_rejected (fun _ _ => 0) 7 4 (some 1) 10 ["1,1=2", "1,3=2"]
    [[2, 0, 2, 0], [0, 0, 0, 0], [0, 0, 0, 0], [0, 0, 0, 0]]
    (by decide) ⟨0, by decide, Or.inl (by decide)⟩
  ⟨h.1, h.2 (fun _ _ => 1) 9 none 3⟩

/-! ### Claim C2 -/

/-- C2 counterexample: with N = 2, the position `0,1=1` has row 0 — outside
[1, N] — yet seed validation does not fail with an out-of-range error:
Python's negative indexing writes the value into the last row (cell (2,1)
in 1-indexed terms) and the whole run succeeds. -/
theorem row_zero_not_rejected :
    placeAll 2 (zeroGrid 2) ["0,1=1"] = .ok [[0, 0], [1, 0]] ∧
    generate (fun _ _ => 0) 7 2 (some 1) 5 ["0,1=1"] = .ok ([[2, 1], [1, 2]], 1) :=
  ⟨by decide, by decide⟩

/-- C2 amended: only the *value* of a position token is range-checked
(failing with the out-of-range error when the value is outside [1, N]);
the row and column are used directly as Python list indices, so rows or
columns in [1−N, 0] silently wrap around to index `N + (row − 1)` resp.
`N + (col − 1)`, and rows or columns outside [1−N, N] fail with an uncaught
`IndexError`, not the out-of-range error. -/
theorem value_range_checked_rows_wrapped (size : Nat) (tok : String)
    (rc vs rs cs : List Char) (v r c : Int)
    (hsplit1 : splitOnChar '=' tok.data = [rc, vs])
    (hsplit2 : splitOnChar ',' rc = [rs, cs])
    (hv : pyInt vs = some v) :
    (¬ (0 < v ∧ v ≤ (size : Int)) → parsePos size tok = .error (.outOfRange tok)) ∧
    (pyInt rs = some r → pyInt cs = some c → (0 < v ∧ v ≤ (size : Int)) →
      ((1 - (size : Int) ≤ r ∧ r ≤ 0) → (1 ≤ c ∧ c ≤ (size : Int)) →
        parsePos size tok = .ok (((size : Int) + (r - 1)).toNat, (c - 1).toNat, v.toNat)) ∧
      ((r < 1 - (size : Int) ∨ (size : Int) < r) →
        parsePos size tok = .error .indexError) ∧
      ((1 ≤ r ∧ r ≤ (size : Int)) → (1 - (size : Int) ≤ c ∧ c ≤ 0) →
        parsePos size tok = .ok ((r - 1).toNat, ((size : Int) + (c - 1)).toNat, v.toNat)) ∧
      ((1 - (size : Int) ≤ r ∧ r ≤ 0) → (1 - (size : Int) ≤ c ∧ c ≤ 0) →
        parsePos size tok =
          .ok (((size : Int) + (r - 1)).toNat, ((size : Int) + (c - 1)).toNat, v.toNat)) ∧
      ((1 - (size : Int) ≤ r ∧ r ≤ (size : Int)) → (c < 1 - (size : Int) ∨ (size : Int) < c) →
        parsePos size tok = .error .indexError)) := by
  unfold parsePos
  rw [hsplit1]
  dsimp only
  rw [hsplit2]
  dsimp only
  rw [hv]
  dsimp only
  constructor
  · intro hnot
    rw [if_neg hnot]
  · intro hr hc hin
    rw [if_pos hin, hr]
    dsimp only
    refine ⟨?_, ?_, ?_, ?_, ?_⟩
    · intro hrw hcr
      rw [pyIdx_of_neg (by omega) (by omega)]
      dsimp only
      rw [hc]
      dsimp only
      rw [pyIdx_of_nonneg (by omega) (by omega)]
    · intro hout
      rw [pyIdx_none (by omega)]
    · intro hrn hcw
      rw [pyIdx_of_nonneg (by omega) (by omega)]
      dsimp only
      rw [hc]
      dsimp only
      rw [pyIdx_of_neg (by omega) (by omega)]
    · intro hrw hcw
      rw [pyIdx_of_neg (by omega) (by omega)]
      dsimp only
      rw [hc]
      dsimp only
      rw [pyIdx_of_neg (by omega) (by omega)]
    · intro hrok hcout
      by_cases hr1 : 1 ≤ r
      · rw [pyIdx_of_nonneg (by omega) (by omega)]
        dsimp only
        rw [hc]
        dsimp only
        rw [pyIdx_none (by omega)]
      · rw [pyIdx_of_neg (by omega) (by omega)]
        dsimp only
        rw [hc]
        dsimp only
        rw [pyIdx_none (by omega)]

/-- Witness for the amended C2: with N = 2, value 7 is rejected as out of
range, row 9 raises the index error, and row 0 wraps to the last row. -/
theorem value_range_checked_rows_wrapped_witness :
    parsePos 2 "1,1=7" = .error (.outOfRange "1,1=7") ∧
    parsePos 2 "9,1=1" = .error .indexError ∧
    parsePos 2 "0,1=1" = .ok (((2 : Int) + (0 - 1)).toNat, ((1 : Int) - 1).toNat, (1 : Int).toNat) ∧
    parsePos 2 "1,0=1" = .ok (((1 : Int) - 1).toNat, ((2 : Int) + (0 - 1)).toNat, (1 : Int).toNat) ∧
    parsePos 2 "1,9=1" = .error .indexError :=
  ⟨(value_range_checked_rows_wrapped 2 "1,1=7" "1,1".data "7".data "1".data "1".data 7 1 1
      (by decide) (by decide) (by decide)).1 (by decide),
   ((value_range_checked_rows_wrapped 2 "9,1=1" "9,1".data "1".data "9".data "1".data 1 9 1
      (by decide) (by decide) (by decide)).2 (by decide) (by decide) (by decide)).2.1 (by decide),
   ((value_range_checked_rows_wrapped 2 "0,1=1" "0,1".data "1".data "0".data "1".data 1 0 1
      (by decide) (by decide) (by decide)).2 (by decide) (by decide) (by decide)).1
      (by decide) (by decide),
   ((value_range_checked_rows_wrapped 2 "1,0=1" "1,0".data "1".data "1".data "0".data 1 1 0
      (by decide) (by decide) (by decide)).2 (by decide) (by decide) (by decide)).2.2.1
      (by decide) (by decide),
   ((value_range_checked_rows_wrapped 2 "1,9=1" "1,9".data "1".data "1".data "9".data 1 1 9
      (by decide) (by decide) (by decide)).2 (by decide) (by decide) (by decide)).2.2.2.2
      (by decide) (by decide)⟩

/-! ### Claim C3 -/

lemma setCell_length (g : Grid) (ri ci v : Nat) : (setCell g ri ci v).length = g.length := by
  unfold setCell
  exact List.length_set ..

lemma setCell_getD_row {g : Grid} {ri : Nat} (ci v : Nat) (hri : ri < g.length) :
    (setCell g ri ci v).getD ri [] = (g.getD ri []).set ci v := by
  unfold setCell
  rw [List.getD_eq_getElem _ _ (by rw [List.length_set]; exact hri)]
  rw [List.getElem_set_self]

lemma cellVal_setCell_same {g : Grid} {ri ci : Nat} (v : Nat)
    (hri : ri < g.length) (hci : ci < (g.getD ri []).length) :
    cellVal (setCell g ri ci v) ri ci = v := by
  unfold cellVal
  rw [setCell_getD_row ci v hri]
  rw [List.getD_eq_getElem _ _ (by rw [List.length_set]; exact hci)]
  rw [List.getElem_set_self]

/-- C3 counterexample: two positions assigning different values to the same
cell are not rejected — there is no duplicate-assignment error anywhere in
the pipeline; the later value silently overwrites the earlier one and the
run succeeds. -/
theorem duplicate_cell_not_rejected :
    placeAll 2 (zeroGrid 2) ["1,1=1", "1,1=2"] = .ok [[2, 0], [0, 0]] ∧
    generate (fun _ _ => 0) 7 2 (some 1) 5 ["1,1=1", "1,1=2"] = .ok ([[2, 1], [1, 2]], 1) :=
  ⟨by decide, by decide⟩


/-! ### Claim C9 -/

/-- C9 counterexample: the token `x,1=5` (with N = 4) cannot be decomposed
into integer row, column and value components, yet processing fails with
the value-range error, not a parse error: the value-range `assert` runs
before `int(row)` is ever evaluated. -/
theorem malformed_row_preempted_by_range_check :
    generate (fun _ _ => 0) 7 4 none 10 ["x,1=5"] = .error (.outOfRange "x,1=5") ∧
    generate (fun _ _ => 0) 7 4 none 10 ["x,1=5"] ≠ .error (.parse "x,1=5") :=
  ⟨by decide, by decide⟩

lemma placeAll_append {size : Nat} :
    ∀ (ts : List String) (g gmid : Grid) (rest : List String),
      placeAll size g ts = .ok gmid →
      placeAll size g (ts ++ rest) = placeAll size gmid rest := by
  intro ts
  induction ts with
  | nil =>
    intro g gmid rest h
    cases h
    rfl
  | cons t ts ih =>
    intro g gmid rest h
    unfold placeAll at h
    cases hp : placeOne size g t with
    | error e => rw [hp] at h; cases h
    | ok g' =>
      rw [hp] at h
      dsimp only at h
      rw [List.cons_append]
      simp only [placeAll, hp]
      exact ih g' gmid rest h

/-- C9 amended: a token that fails the `=`-split, fails the `,`-split, or
whose value component is not an integer always fails with the parse error;
a non-integer row component fails with the parse error only when the value
is an integer in [1, N] (otherwise the range check preempts it), and a
non-integer column component additionally requires the row to resolve to a
valid index (otherwise the index error preempts it).  Whenever the first
failing token fails with the parse error, the whole run returns exactly
that error, regardless of the random streams, entropy, seed, or attempt
budget — generation never starts. -/
theorem parse_failure_cases (size : Nat) (tok : String) :
    ((∀ x y, splitOnChar '=' tok.data ≠ [x, y]) → parsePos size tok = .error (.parse tok)) ∧
    (∀ rc vs, splitOnChar '=' tok.data = [rc, vs] →
      ((∀ x y, splitOnChar ',' rc ≠ [x, y]) → parsePos size tok = .error (.parse tok)) ∧
      (∀ rs cs, splitOnChar ',' rc = [rs, cs] →
        (pyInt vs = none → parsePos size tok = .error (.parse tok)) ∧
        (∀ v, pyInt vs = some v → (0 < v ∧ v ≤ (size : Int)) →
          (pyInt rs = none → parsePos size tok = .error (.parse tok)) ∧
          (∀ r ri, pyInt rs = some r → pyIdx size (r - 1) = some ri →
            pyInt cs = none → parsePos size tok = .error (.parse tok))))) ∧
    (∀ (ts ts' : List String) (gmid : Grid) (prng : Int → Nat → Nat) (fresh : Int)
        (seed : Option Int) (maxA : Nat),
      placeAll size (zeroGrid size) ts = .ok gmid →
      parsePos size tok = .error (.parse tok) →
      generate prng fresh size seed maxA (ts ++ tok :: ts') = .error (.parse tok)) := by
  refine ⟨?_, ?_, ?_⟩
  · intro h
    unfold parsePos
    cases hs : splitOnChar '=' tok.data with
    | nil => rfl
    | cons x rest =>
      cases rest with
      | nil => rfl
      | cons y rest2 =>
        cases rest2 with
        | nil => exact absurd hs (h x y)
        | cons z rest3 => rfl
  · intro rc vs hsplit1
    constructor
    · intro h
      unfold parsePos
      rw [hsplit1]
      dsimp only
      cases hs : splitOnChar ',' rc with
      | nil => rfl
      | cons x rest =>
        cases rest with
        | nil => rfl
        | cons y rest2 =>
          cases rest2 with
          | nil => exact absurd hs (h x y)
          | cons z rest3 => rfl
    · intro rs cs hsplit2
      constructor
      · intro hnone
        unfold parsePos
        rw [hsplit1]
        dsimp only
        rw [hsplit2]
        dsimp only
        rw [hnone]
      · intro v hv hin
        constructor
        · intro hnone
          unfold parsePos
          rw [hsplit1]
          dsimp only
          rw [hsplit2]
          dsimp only
          rw [hv]
          dsimp only
          rw [if_pos hin, hnone]
        · intro r ri hr hri hnone
          unfold parsePos
          rw [hsplit1]
          dsimp only
          rw [hsplit2]
          dsimp only
          rw [hv]
          dsimp only
          rw [if_pos hin, hr]
          dsimp only
          rw [hri]
          dsimp only
          rw [hnone]
  · intro ts ts' gmid prng fresh seed maxA hplace hparse
    unfold generate
    rw [placeAll_append ts (zeroGrid size) gmid (tok :: ts') hplace]
    have hstep : placeAll size gmid (tok :: ts') = .error (.parse tok) := by
      simp only [placeAll, placeOne, hparse]
    rw [hstep]

/-- Witness for the amended C9: the spec's own example token `1,=2`
(empty column component) fails with the parse error and aborts the whole
run. -/
theorem parse_failure_cases_witness :
    parsePos 4 "1,=2" = .error (.parse "1,=2") ∧
    generate (fun _ _ => 0) 7 4 none 10 ["1,=2"] = .error (.parse "1,=2") :=
  have hp : parsePos 4 "1,=2" = .error (.parse "1,=2") :=
    ((((parse_failure_cases 4 "1,=2").2.1 "1,".data "2".data (by decide)).2
        "1".data "".data (by decide)).2 2 (by decide) (by decide)).2 1 0
        (by decide) (by decide) (by decide)
  ⟨hp, (parse_failure_cases 4 "1,=2").2.2 [] [] (zeroGrid 4) (fun _ _ => 0) 7 none 10
    (by decide) hp⟩

/-! ### Claim C6 -/

lemma candList_nodup (size : Nat) (g : Grid) (ri c : Nat) : (candList size g ri c).Nodup :=
  (List.nodup_range' 1 size).filter _

lemma candList_sorted (size : Nat) (g : Grid) (ri c : Nat) :
    List.Sorted (· ≤ ·) (candList size g ri c) :=
  List.Sorted.filter _ ((List.pairwise_lt_range' 1 size).imp le_of_lt)

lemma specCandidates_eq (size : Nat) (g : Grid) (ri c : Nat) :
    specCandidates size g ri c = (candList size g ri c).toFinset := by
  ext x
  simp only [specCandidates, candList, Finset.mem_sdiff, Finset.mem_Icc, List.mem_toFinset,
    List.mem_filter, List.mem_range'_1, Bool.and_eq_true, decide_eq_true_eq]
  simp only [List.contains_eq_any_beq, Bool.not_eq_true']
  constructor
  · rintro ⟨⟨⟨h1, h2⟩, hrow⟩, hcol⟩
    refine ⟨⟨h1, by omega⟩, ?_, ?_⟩
    · rw [Bool.eq_false_iff]
      intro hany
      rw [List.any_eq_true] at hany
      obtain ⟨y, hy, hxy⟩ := hany
      rw [beq_iff_eq] at hxy
      subst hxy
      exact hrow ⟨hy, by omega⟩
    · rw [Bool.eq_false_iff]
      intro hany
      rw [List.any_eq_true] at hany
      obtain ⟨y, hy, hxy⟩ := hany
      rw [beq_iff_eq] at hxy
      subst hxy
      exact hcol ⟨hy, by omega⟩
  · rintro ⟨⟨h1, h2⟩, hrow, hcol⟩
    refine ⟨⟨⟨h1, by omega⟩, ?_⟩, ?_⟩
    · rintro ⟨hmem, -⟩
      rw [Bool.eq_false_iff] at hrow
      exact hrow (List.any_eq_true.mpr ⟨x, hmem, beq_iff_eq.mpr rfl⟩)
    · rintro ⟨hmem, -⟩
      rw [Bool.eq_false_iff] at hcol
      exact hcol (List.any_eq_true.mpr ⟨x, hmem, beq_iff_eq.mpr rfl⟩)

lemma sort_specCandidates (size : Nat) (g : Grid) (ri c : Nat) :
    (specCandidates size g ri c).sort (· ≤ ·) = candList size g ri c := by
  rw [specCandidates_eq]
  exact (List.toFinset_sort (· ≤ ·) (candList_nodup size g ri c)).mpr
    (candList_sorted size g ri c)

lemma specCandidates_empty_iff (size : Nat) (g : Grid) (ri c : Nat) :
    specCandidates size g ri c = ∅ ↔ (candList size g ri c).isEmpty = true := by
  rw [specCandidates_eq, List.toFinset_eq_empty_iff, List.isEmpty_iff]

lemma fillCellsSpec_eq (size : Nat) :
    ∀ (cells : List (Nat × Nat)) (g : Grid) (rng : Rng),
      fillCellsSpec size cells g rng = fillCells size cells g rng := by
  intro cells
  induction cells with
  | nil => intro g rng; rfl
  | cons cell rest ih =>
    intro g rng
    rcases cell with ⟨r, c⟩
    simp only [fillCells, fillCellsSpec]
    by_cases h0 : (g.getD r []).getD c 0 = 0
    · rw [if_pos h0, if_pos h0]
      by_cases hemp : (candList size g r c).isEmpty
      · rw [if_pos ((specCandidates_empty_iff ..).mpr hemp), if_pos hemp]
      · rw [if_neg (fun hc => hemp ((specCandidates_empty_iff ..).mp hc)), if_neg hemp]
        rw [sort_specCandidates]
        exact ih _ _
    · rw [if_neg h0, if_neg h0]
      exact ih g rng

/-- C6: each attempt of the source — visiting cells in row-major order,
skipping non-zero cells, computing `{1..N} - set(row) - set(column)`
against the live working grid, abandoning the attempt when the candidate
set is empty and otherwise assigning a choice from the shared random
source — coincides exactly with the spec's formulation, in which the
candidate set is `{1..N}` minus the *non-zero* row values minus the
*non-zero* column values of the live grid (subtracting zero from {1..N} is
a no-op, so the two candidate sets agree). -/
theorem attempt_refines_spec (size : Nat) (g0 : Grid) (rng : Rng) :
    runAttempt size g0 rng = runAttemptSpec size g0 rng := by
  unfold runAttempt runAttemptSpec
  rw [fillCellsSpec_eq]

/-! ### Claim C7 -/

lemma generate_eq_core {prng : Int → Nat → Nat} {fresh : Int} {size : Nat}
    {seed : Option Int} {maxA : Nat} {ps : List String} {ginit : Grid}
    (hplace : placeAll size (zeroGrid size) ps = .ok ginit)
    (hseed : seedCheck size ginit = .ok ()) :
    generate prng fresh size seed maxA ps =
      genCore size ginit maxA ⟨prng (seedInternal fresh seed), 0⟩ := by
  unfold generate
  rw [hplace]
  dsimp only
  rw [hseed]

lemma finalCheck_not_exhausted (size : Nat) (g : Grid) (k : Nat) :
    finalCheck size g ≠ .error (.exhausted k) := by
  unfold finalCheck
  cases h1 : (List.range g.length).find? (fun i => ! finalRowOk size (g.getD i [])) with
  | some i =>
    intro h
    injection h with h2
    cases h2
  | none =>
    cases h2 : (List.range size).find? (fun j => ! finalRowOk size (colList g j)) with
    | some j =>
      intro h
      injection h with h3
      cases h3
    | none => intro h; cases h

lemma genLoopAux_some_shape {size maxA : Nat} {ginit : Grid} {rng : Rng} {g : Grid} {a : Nat}
    (hl : (genLoopAux size ginit maxA 0 rng).1 = some (g, a)) (hsh : GridShape size ginit) :
    GridShape size g := by
  obtain ⟨-, -, hatt, -⟩ := genLoopAux_some_char size ginit maxA 0 rng g a hl
  unfold attemptGrid at hatt
  rcases hr : runAttempt size ginit (rngAt size ginit rng (a - 0 - 1)) with ⟨res, rng'⟩
  rw [hr] at hatt
  cases res with
  | none => cases hatt
  | some gg =>
    cases hatt
    exact runAttempt_shape hr hsh

lemma genCore_exhausted {size maxA : Nat} {ginit : Grid} {rng : Rng} {k : Nat}
    (hsh : GridShape size ginit) (hsz : 0 < size)
    (h : genCore size ginit maxA rng = .error (.exhausted k)) :
    k = maxA ∧ (genLoopAux size ginit maxA 0 rng).1 = none := by
  unfold genCore at h
  rcases hl : genLoopAux size ginit maxA 0 rng with ⟨res, af, rngf⟩
  rw [hl] at h
  cases res with
  | none =>
    dsimp only at h
    injection h with h2
    injection h2 with h3
    exact ⟨h3.symm, rfl⟩
  | some p =>
    rcases p with ⟨g0, a0⟩
    dsimp only at h
    have hshape : GridShape size g0 := genLoopAux_some_shape (by rw [hl]) hsh
    have hne : g0.isEmpty = false := by
      cases he : g0.isEmpty with
      | false => rfl
      | true =>
        exfalso
        rw [List.isEmpty_iff] at he
        have := hshape.1
        rw [he] at this
        simp at this
        omega
    rw [hne] at h
    simp only [Bool.false_eq_true, if_false] at h
    cases hfc : finalCheck size g0 with
    | error e =>
      rw [hfc] at h
      injection h with h2
      subst h2
      exact absurd hfc (finalCheck_not_exhausted size g0 k)
    | ok u =>
      cases u
      rw [hfc] at h
      cases h

/-- C7: assuming the CLI contract N ≥ 1, the run fails with the exhaustion
error exactly when none of the first `max_attempts` attempts succeeds; the
error's payload equals `max_attempts`, which is then exactly the number of
attempts made (counting is 1-based, one increment per attempt); and a
successful run reports the 1-based index of the first successful attempt
(every earlier attempt having dead-ended). -/
theorem exhaustion_and_attempt_count (prng : Int → Nat → Nat) (fresh : Int)
    (size : Nat) (seed : Option Int) (maxA : Nat) (ps : List String) (ginit : Grid)
    (hplace : placeAll size (zeroGrid size) ps = .ok ginit)
    (hseed : seedCheck size ginit = .ok ())
    (hsz : 0 < size) :
    (∀ k, generate prng fresh size seed maxA ps = .error (.exhausted k) →
      k = maxA ∧ (genLoopAux size ginit maxA 0 ⟨prng (seedInternal fresh seed), 0⟩).2.1 = maxA ∧
      ∀ i < maxA, attemptGrid size ginit ⟨prng (seedInternal fresh seed), 0⟩ i = none) ∧
    ((∀ i < maxA, attemptGrid size ginit ⟨prng (seedInternal fresh seed), 0⟩ i = none) →
      generate prng fresh size seed maxA ps = .error (.exhausted maxA)) ∧
    (∀ g a, generate prng fresh size seed maxA ps = .ok (g, a) →
      1 ≤ a ∧ a ≤ maxA ∧
      attemptGrid size ginit ⟨prng (seedInternal fresh seed), 0⟩ (a - 1) = some g ∧
      ∀ i < a - 1, attemptGrid size ginit ⟨prng (seedInternal fresh seed), 0⟩ i = none) := by
  have hsh := placeAll_shape hplace (zeroGrid_shape size)
  refine ⟨?_, ?_, ?_⟩
  · intro k hk
    rw [generate_eq_core hplace hseed] at hk
    obtain ⟨hkM, hnone⟩ := genCore_exhausted hsh hsz hk
    obtain ⟨hcount, hall⟩ := genLoopAux_none_char size ginit maxA 0 _ hnone
    exact ⟨hkM, by rw [hcount]; omega, hall⟩
  · intro hall
    rw [generate_eq_core hplace hseed]
    unfold genCore
    rw [genLoopAux_all_fail size ginit maxA 0 _ hall]
  · intro g a hok
    rw [generate_eq_core hplace hseed] at hok
    obtain ⟨hloop, -, -⟩ := genCore_ok hok
    obtain ⟨h1, h2, h3, h4⟩ := genLoopAux_some_char size ginit maxA 0 _ g a hloop
    have heq : a - 0 - 1 = a - 1 := by omega
    rw [heq] at h3 h4
    exact ⟨by omega, by omega, h3, h4⟩

/-- Witness for C7: N = 1 with no positions and budget 2 — the run
succeeds on attempt 1 through the characterization. -/
theorem exhaustion_and_attempt_count_witness :
    (∀ k, generate (fun _ _ => 0) 7 1 (some 1) 2 [] = .error (.exhausted k) →
      k = 2 ∧ (genLoopAux 1 [[0]] 2 0 ⟨(fun _ _ => 0 : Int → Nat → Nat) (seedInternal 7 (some 1)), 0⟩).2.1 = 2 ∧
      ∀ i < 2, attemptGrid 1 [[0]] ⟨(fun _ _ => 0 : Int → Nat → Nat) (seedInternal 7 (some 1)), 0⟩ i = none) ∧
    ((∀ i < 2, attemptGrid 1 [[0]] ⟨(fun _ _ => 0 : Int → Nat → Nat) (seedInternal 7 (some 1)), 0⟩ i = none) →
      generate (fun _ _ => 0) 7 1 (some 1) 2 [] = .error (.exhausted 2)) ∧
    (∀ g a, generate (fun _ _ => 0) 7 1 (some 1) 2 [] = .ok (g, a) →
      1 ≤ a ∧ a ≤ 2 ∧
      attemptGrid 1 [[0]] ⟨(fun _ _ => 0 : Int → Nat → Nat) (seedInternal 7 (some 1)), 0⟩ (a - 1) = some g ∧
      ∀ i < a - 1, attemptGrid 1 [[0]] ⟨(fun _ _ => 0 : Int → Nat → Nat) (seedInternal 7 (some 1)), 0⟩ i = none) :=
  exhaustion_and_attempt_count (fun _ _ => 0) 7 1 (some 1) 2 [] [[0]]
    (by decide) (by decide) (by decide)

/-! ### Claim C8 -/

lemma cellVal_setCell_ne {g : Grid} {ri ci r c : Nat} (v : Nat) (hne : ¬(ri = r ∧ ci = c)) :
    cellVal (setCell g ri ci v) r c = cellVal g r c := by
  by_cases hr : ri = r
  · subst hr
    have hc : ci ≠ c := fun h => hne ⟨rfl, h⟩
    by_cases hlen : ri < g.length
    · unfold cellVal
      rw [setCell_getD_row ci v hlen]
      rw [List.getD_eq_getElem?_getD ((g.getD ri []).set ci v) c 0,
        List.getElem?_set_ne hc, ← List.getD_eq_getElem?_getD]
    · unfold cellVal setCell
      rw [List.set_eq_of_length_le (by omega)]
  · unfold cellVal setCell
    rw [List.getD_eq_getElem?_getD (List.set g ri ((g.getD ri []).set ci v)) r [],
      List.getElem?_set_ne hr, ← List.getD_eq_getElem?_getD]

lemma fillCells_preserves_nonzero (size : Nat) :
    ∀ (cells : List (Nat × Nat)) (g : Grid) (rng : Rng) (g' : Grid) (rng' : Rng),
      fillCells size cells g rng = (some g', rng') →
      ∀ r c, cellVal g r c ≠ 0 → cellVal g' r c = cellVal g r c := by
  intro cells
  induction cells with
  | nil =>
    intro g rng g' rng' h r c _
    cases h
    rfl
  | cons cell rest ih =>
    intro g rng g' rng' h r c hnz
    rcases cell with ⟨cr, cc⟩
    simp only [fillCells] at h
    by_cases h0 : (g.getD cr []).getD cc 0 = 0
    · rw [if_pos h0] at h
      by_cases hemp : (candList size g cr cc).isEmpty
      · rw [if_pos hemp] at h; cases h
      · rw [if_neg hemp] at h
        have hne : ¬(cr = r ∧ cc = c) := by
          rintro ⟨rfl, rfl⟩
          exact hnz h0
        have hstep := ih _ _ _ _ h r c (by rw [cellVal_setCell_ne _ hne]; exact hnz)
        rw [hstep, cellVal_setCell_ne _ hne]
    · rw [if_neg h0] at h
      exact ih _ _ _ _ h r c hnz

lemma placeAll_append_inv {size : Nat} :
    ∀ (ts rest : List String) (g g' : Grid),
      placeAll size g (ts ++ rest) = .ok g' →
      ∃ gmid, placeAll size g ts = .ok gmid ∧ placeAll size gmid rest = .ok g' := by
  intro ts
  induction ts with
  | nil => intro rest g g' h; exact ⟨g, rfl, h⟩
  | cons t ts ih =>
    intro rest g g' h
    rw [List.cons_append] at h
    unfold placeAll at h
    cases hp : placeOne size g t with
    | error e => rw [hp] at h; cases h
    | ok gmid =>
      rw [hp] at h
      dsimp only at h
      obtain ⟨gm2, h1, h2⟩ := ih rest gmid g' h
      refine ⟨gm2, ?_, h2⟩
      unfold placeAll
      rw [hp]
      dsimp only
      exact h1

lemma placeAll_untouched {size : Nat} :
    ∀ (ts : List String) (g g' : Grid) (r c : Nat),
      placeAll size g ts = .ok g' →
      (∀ t ∈ ts, ∀ ri ci v, parsePos size t = .ok (ri, ci, v) → ¬(ri = r ∧ ci = c)) →
      cellVal g' r c = cellVal g r c := by
  intro ts
  induction ts with
  | nil =>
    intro g g' r c h _
    cases h
    rfl
  | cons t ts ih =>
    intro g g' r c h huntouched
    unfold placeAll at h
    cases hp : placeOne size g t with
    | error e => rw [hp] at h; cases h
    | ok gmid =>
      rw [hp] at h
      dsimp only at h
      unfold placeOne at hp
      cases hpp : parsePos size t with
      | error e => rw [hpp] at hp; cases hp
      | ok triple =>
        rcases triple with ⟨ri, ci, v⟩
        rw [hpp] at hp
        cases hp
        have hne := huntouched t (by simp) ri ci v hpp
        rw [ih _ _ r c h (fun t' ht' => huntouched t' (by simp [ht']))]
        exact cellVal_setCell_ne v hne


lemma parsePos_ok_bounds {size : Nat} {tok : String} {ri ci v : Nat}
    (h : parsePos size tok = .ok (ri, ci, v)) :
    ri < size ∧ ci < size ∧ 0 < v ∧ v ≤ size := by
  unfold parsePos at h
  repeat' split at h
  all_goals try cases h
  rename_i hin hx3 hr1 hr2 hx2 hx1 hc1 hc2 hx hri hci
  exact ⟨pyIdx_lt hri, pyIdx_lt hci, by omega, by omega⟩

lemma gridShape_row_len {size : Nat} {g : Grid} (h : GridShape size g) {ri : Nat}
    (hri : ri < size) : (g.getD ri []).length = size := by
  have hlt : ri < g.length := by rw [h.1]; exact hri
  rw [List.getD_eq_getElem _ _ hlt]
  exact h.2 _ (List.getElem_mem hlt)

/-- C3 amended: when two position tokens resolve to the same cell, seed
placement applies them in order with last-write-wins — no error is raised
and the cell ends up holding the second token's value; more generally, in
any position list the last token targeting a cell determines that cell's
final value in the merged initial grid. -/
theorem duplicate_cell_last_write_wins (size : Nat) (g : Grid) (t1 t2 : String)
    (ri ci v1 v2 : Nat)
    (h1 : parsePos size t1 = .ok (ri, ci, v1))
    (h2 : parsePos size t2 = .ok (ri, ci, v2))
    (hri : ri < g.length) (hci : ci < (g.getD ri []).length) :
    placeAll size g [t1, t2] = .ok (setCell (setCell g ri ci v1) ri ci v2) ∧
    cellVal (setCell (setCell g ri ci v1) ri ci v2) ri ci = v2 ∧
    (∀ (pre post : List String) (gstart gfinal : Grid),
      GridShape size gstart →
      placeAll size gstart (pre ++ t2 :: post) = .ok gfinal →
      (∀ t' ∈ post, ∀ r' c' v', parsePos size t' = .ok (r', c', v') →
        ¬(r' = ri ∧ c' = ci)) →
      cellVal gfinal ri ci = v2) := by
  refine ⟨?_, ?_, ?_⟩
  · simp only [placeAll, placeOne, h1, h2]
  · have hL : ri < (setCell g ri ci v1).length := by
      rw [setCell_length]; exact hri
    have hC : ci < ((setCell g ri ci v1).getD ri []).length := by
      rw [setCell_getD_row ci v1 hri, List.length_set]
      exact hci
    exact cellVal_setCell_same v2 hL hC
  · intro pre post gstart gfinal hshape hall huntouched
    obtain ⟨gpre, hpre, hrest⟩ := placeAll_append_inv pre (t2 :: post) gstart gfinal hall
    have hpre_shape : GridShape size gpre := placeAll_shape hpre hshape
    obtain ⟨hri2, hci2, -, -⟩ := parsePos_ok_bounds h2
    have hone : placeOne size gpre t2 = .ok (setCell gpre ri ci v2) := by
      simp only [placeOne, h2]
    have hpost : placeAll size (setCell gpre ri ci v2) post = .ok gfinal := by
      unfold placeAll at hrest
      rw [hone] at hrest
      dsimp only at hrest
      exact hrest
    have hcell : cellVal (setCell gpre ri ci v2) ri ci = v2 :=
      cellVal_setCell_same v2 (by rw [hpre_shape.1]; exact hri2)
        (by rw [gridShape_row_len hpre_shape hri2]; exact hci2)
    rw [placeAll_untouched post _ _ ri ci hpost huntouched]
    exact hcell

/-- Witness for the amended C3 at a concrete pair of conflicting tokens. -/
theorem duplicate_cell_last_write_wins_witness :
    placeAll 2 (zeroGrid 2) ["2,2=1", "2,2=2"] = .ok (setCell (setCell (zeroGrid 2) 1 1 1) 1 1 2) ∧
    cellVal (setCell (setCell (zeroGrid 2) 1 1 1) 1 1 2) 1 1 = 2 ∧
    cellVal [[0, 0], [0, 2]] 1 1 = 2 :=
  have h := duplicate_cell_last_write_wins 2 (zeroGrid 2) "2,2=1" "2,2=2" 1 1 1 2
    (by decide) (by decide) (by decide) (by decide)
  ⟨h.1, h.2.1,
   h.2.2 ["2,2=1"] [] (zeroGrid 2) [[0, 0], [0, 2]] (zeroGrid_shape 2) (by decide) (by simp)⟩

/-- C8: on a successful run whose fixed positions target pairwise distinct
cells, every caller-supplied position `(row, col, value)` appears unchanged
at its resolved cell of the returned grid: placement wrote the value into
the initial grid, the seed grid is only ever cloned (each attempt starts
from it afresh), and the fill loop never overwrites a non-zero cell. -/
theorem fixed_positions_preserved (prng : Int → Nat → Nat) (fresh : Int)
    (size : Nat) (seed : Option Int) (maxA : Nat) (ps : List String) (g : Grid) (a : Nat)
    (hok : generate prng fresh size seed maxA ps = .ok (g, a))
    (hdistinct : ps.Pairwise (fun t1 t2 => ∀ r1 c1 v1 r2 c2 v2,
      parsePos size t1 = .ok (r1, c1, v1) → parsePos size t2 = .ok (r2, c2, v2) →
      ¬(r1 = r2 ∧ c1 = c2))) :
    ∀ tok ∈ ps, ∀ ri ci v, parsePos size tok = .ok (ri, ci, v) →
      cellVal g ri ci = v := by
  obtain ⟨ginit, hplace, hseed, hcore⟩ := generate_ok_parts hok
  obtain ⟨hloop, -, -⟩ := genCore_ok hcore
  intro tok htok ri ci v hparse
  obtain ⟨hri, hci, hv1, hv2⟩ := parsePos_ok_bounds hparse
  obtain ⟨pre, post, rfl⟩ := List.append_of_mem htok
  obtain ⟨gpre, hpre, hrest⟩ := placeAll_append_inv pre (tok :: post) (zeroGrid size) ginit hplace
  have hpre_shape : GridShape size gpre := placeAll_shape hpre (zeroGrid_shape size)
  have hone : placeOne size gpre tok = .ok (setCell gpre ri ci v) := by
    simp only [placeOne, hparse]
  have hpost : placeAll size (setCell gpre ri ci v) post = .ok ginit := by
    unfold placeAll at hrest
    rw [hone] at hrest
    dsimp only at hrest
    exact hrest
  have hriL : ri < gpre.length := by rw [hpre_shape.1]; exact hri
  have hciL : ci < (gpre.getD ri []).length := by
    rw [gridShape_row_len hpre_shape hri]
    exact hci
  have hcell1 : cellVal (setCell gpre ri ci v) ri ci = v := cellVal_setCell_same v hriL hciL
  have hpair := hdistinct
  rw [List.pairwise_append] at hpair
  obtain ⟨-, hpair2, -⟩ := hpair
  rw [List.pairwise_cons] at hpair2
  have huntouched : ∀ t' ∈ post, ∀ r' c' v', parsePos size t' = .ok (r', c', v') →
      ¬(r' = ri ∧ c' = ci) := by
    intro t' ht' r' c' v' hp' hcontra
    exact hpair2.1 t' ht' ri ci v r' c' v' hparse hp' ⟨hcontra.1.symm, hcontra.2.symm⟩
  have hcell2 : cellVal ginit ri ci = v := by
    rw [placeAll_untouched post _ _ ri ci hpost huntouched]
    exact hcell1
  obtain ⟨-, -, hatt, -⟩ := genLoopAux_some_char size ginit maxA 0 _ g a hloop
  unfold attemptGrid at hatt
  rcases hr : runAttempt size ginit
      (rngAt size ginit ⟨prng (seedInternal fresh seed), 0⟩ (a - 0 - 1)) with ⟨res, rng'⟩
  rw [hr] at hatt
  cases res with
  | none => cases hatt
  | some gg =>
    cases hatt
    unfold runAttempt at hr
    have hpres := fillCells_preserves_nonzero size _ ginit _ g rng' hr ri ci
      (by rw [hcell2]; omega)
    rw [hpres, hcell2]

/-- Witness for C8 at a concrete successful run with one fixed position. -/
theorem fixed_positions_preserved_witness : cellVal [[1, 2], [2, 1]] 0 0 = 1 :=
  fixed_positions_preserved (fun _ _ => 0) 7 2 (some 1) 5 ["1,1=1"] [[1, 2], [2, 1]] 1
    (by decide) (by simp) "1,1=1" (by simp) 0 0 1 (by decide)
